import Mathlib

/-!
Verification development for the bigframes expression/ordering/join/operator
core.  Python classes and functions from `bigframes/aggregations.py`,
`bigframes/operations/__init__.py`, `bigframes/dtypes.py`,
`bigframes/core/joins/row_identity.py`, `bigframes/core/indexes/index.py` and
`bigframes/session.py` are shallowly embedded as Lean definitions; ibis column
expressions are given an explicit SQL-style three-valued semantics.
-/

namespace BigFrames

/-! ## Scalar values and SQL three-valued semantics

An ibis scalar is either an integer or a boolean; `Option Val` adds SQL NULL.
Evaluation may fail (e.g. BigQuery raises on `MOD(x, 0)`), which we model with
`Except EvalError`. -/

inductive Val where
  | int (i : Int)
  | bool (b : Bool)
deriving DecidableEq, Repr

inductive EvalError where
  | divByZero
  | typeError
deriving DecidableEq, Repr

/-- Ibis column expressions, restricted to the constructors the embedded
operators build: literals, column references, Kleene boolean connectives,
comparisons, arithmetic, and searched CASE chains (a multi-branch
`ibis.case().when(a,b).when(c,d).else_(e).end()` is the nesting
`caseWhen a b (caseWhen c d e)`). -/
inductive ColExpr where
  | lit (v : Option Val)
  | column (name : String)
  | and (a b : ColExpr)
  | or (a b : ColExpr)
  | lt (a b : ColExpr)
  | gt (a b : ColExpr)
  | eq (a b : ColExpr)
  | add (a b : ColExpr)
  | mul (a b : ColExpr)
  | mod (a b : ColExpr)
  | floordiv (a b : ColExpr)
  | caseWhen (cond thn els : ColExpr)
deriving DecidableEq, Repr

/-- A row assigns each backend column a (possibly NULL) value. -/
def Row : Type := String → Option Val

/-- Kleene three-valued AND: false dominates NULL. -/
def kleeneAnd : Option Bool → Option Bool → Option Bool
  | some false, _ => some false
  | _, some false => some false
  | some true, some true => some true
  | _, _ => none

/-- Kleene three-valued OR: true dominates NULL. -/
def kleeneOr : Option Bool → Option Bool → Option Bool
  | some true, _ => some true
  | _, some true => some true
  | some false, some false => some false
  | _, _ => none

/-- Extract an integer from a nullable value, or fail with a type error. -/
def asIntOpt : Option Val → Except EvalError (Option Int)
  | none => .ok none
  | some (.int i) => .ok (some i)
  | some (.bool _) => .error .typeError

/-- Extract a boolean from a nullable value, or fail with a type error. -/
def asBoolOpt : Option Val → Except EvalError (Option Bool)
  | none => .ok none
  | some (.bool b) => .ok (some b)
  | some (.int _) => .error .typeError

/-- Null-propagating binary integer operation. -/
def liftInt2 (f : Int → Int → Int) (a b : Option Int) : Option Val :=
  match a, b with
  | some x, some y => some (.int (f x y))
  | _, _ => none

/-- Null-propagating integer comparison. -/
def liftCmp (f : Int → Int → Bool) (a b : Option Int) : Option Val :=
  match a, b with
  | some x, some y => some (.bool (f x y))
  | _, _ => none

/-- Evaluate a column expression on a row.  CASE branches are evaluated
lazily, exactly as the SQL backend does: only the conditions up to the first
true one and that branch's value are touched, so guarded subexpressions
(such as a division by zero behind a `WHEN y = 0` guard) are unreachable.
`MOD`/floor-division by zero is a backend error.  A NULL or false CASE
condition falls through to the next branch. -/
def eval (row : Row) : ColExpr → Except EvalError (Option Val)
  | .lit v => .ok v
  | .column n => .ok (row n)
  | .and a b => do
      let va ← asBoolOpt (← eval row a)
      let vb ← asBoolOpt (← eval row b)
      .ok ((kleeneAnd va vb).map .bool)
  | .or a b => do
      let va ← asBoolOpt (← eval row a)
      let vb ← asBoolOpt (← eval row b)
      .ok ((kleeneOr va vb).map .bool)
  | .lt a b => do
      let va ← asIntOpt (← eval row a)
      let vb ← asIntOpt (← eval row b)
      .ok (liftCmp (fun x y => decide (x < y)) va vb)
  | .gt a b => do
      let va ← asIntOpt (← eval row a)
      let vb ← asIntOpt (← eval row b)
      .ok (liftCmp (fun x y => decide (x > y)) va vb)
  | .eq a b => do
      let va ← asIntOpt (← eval row a)
      let vb ← asIntOpt (← eval row b)
      .ok (liftCmp (fun x y => decide (x = y)) va vb)
  | .add a b => do
      let va ← asIntOpt (← eval row a)
      let vb ← asIntOpt (← eval row b)
      .ok (liftInt2 (· + ·) va vb)
  | .mul a b => do
      let va ← asIntOpt (← eval row a)
      let vb ← asIntOpt (← eval row b)
      .ok (liftInt2 (· * ·) va vb)
  | .mod a b => do
      let va ← asIntOpt (← eval row a)
      let vb ← asIntOpt (← eval row b)
      match va, vb with
      | some x, some y =>
          if y = 0 then .error .divByZero
          else .ok (some (.int (Int.tmod x y)))
      | _, _ => .ok none
  | .floordiv a b => do
      let va ← asIntOpt (← eval row a)
      let vb ← asIntOpt (← eval row b)
      match va, vb with
      | some x, some y =>
          if y = 0 then .error .divByZero
          else .ok (some (.int (Int.fdiv x y)))
      | _, _ => .ok none
  | .caseWhen cond thn els => do
      match ← asBoolOpt (← eval row cond) with
      | some true => eval row thn
      | some false => eval row els
      | none => eval row els

/-! ## Binary operators (`bigframes/operations/__init__.py`) -/

/-- `_ZERO = typing.cast(ibis_types.NumericValue, ibis_types.literal(0))`. -/
def _ZERO : ColExpr := .lit (some (.int 0))

/-- Whether `y.op()` is an ibis `Literal` whose value equals `0`
(the Python-level test in `mod_op`). -/
def isLiteralZero : ColExpr → Bool
  | .lit (some (.int v)) => v == 0
  | _ => false

/-- `floordiv_op(x, y)`: `CASE WHEN y = 0 THEN 0 * x ELSE x // y END`.  The
zero-divisor branch multiplies the dividend by zero so that NULL propagates
from `x`. -/
def floordiv_op (x y : ColExpr) : ColExpr :=
  .caseWhen (.eq y _ZERO) (.mul _ZERO x) (.floordiv x y)

/-- `mod_op(x, y)`: short-circuits a literal-zero divisor to `0 * x` at graph
construction time; otherwise builds the sign-correcting CASE over the backend
remainder `x % y` (which keeps the dividend's sign). -/
def mod_op (x y : ColExpr) : ColExpr :=
  if isLiteralZero y then .mul _ZERO x
  else
    let bq_mod := ColExpr.mod x y
    .caseWhen (.eq y _ZERO) (.mul _ZERO x)
      (.caseWhen (.and (.lt y _ZERO) (.gt bq_mod _ZERO)) (.add y bq_mod)
        (.caseWhen (.and (.gt y _ZERO) (.lt bq_mod _ZERO)) (.add y bq_mod)
          bq_mod))

/-! ## Aggregate and window operator classes (`bigframes/aggregations.py`)

`WindowOp.skips_nulls` is a property returning `True`; subclasses `CountOp`,
`RankOp` and `ShiftOp` override it to `False`.  We model Python attribute
resolution as an optional per-class override falling back to the base-class
default. -/

inductive OpClass where
  | sumOp | meanOp | productOp | maxOp | minOp | stdOp | varOp
  | countOp | rankOp | firstOp | shiftOp | allOp | anyOp
deriving DecidableEq, Repr

/-- The base-class `WindowOp.skips_nulls` property value. -/
def windowOpSkipsNullsDefault : Bool := true

/-- Which concrete classes override the `skips_nulls` property, and with what
value.  Exactly `CountOp`, `RankOp` and `ShiftOp` define an override in the
source. -/
def skipsNullsOverride : OpClass → Option Bool
  | .countOp => some false
  | .rankOp => some false
  | .shiftOp => some false
  | _ => none

/-- Python attribute lookup for `skips_nulls`: the subclass override if there
is one, else the `WindowOp` default. -/
def skips_nulls (c : OpClass) : Bool :=
  (skipsNullsOverride c).getD windowOpSkipsNullsDefault

/-! ## All/Any aggregates over a grouped column

`AllOp._as_ibis` computes `(column != 0).all().fillna(True)` and
`AnyOp._as_ibis` computes `(column != 0).any().fillna(True)` (windowless).
BigQuery's `LOGICAL_AND`/`LOGICAL_OR` skip NULL inputs and return NULL for an
empty or all-NULL group; `fillna(True)` turns that NULL into `True`. -/

/-- Backend `LOGICAL_AND`: NULLs are skipped; NULL when no non-NULL input. -/
def sqlLogicalAnd (xs : List (Option Bool)) : Option Bool :=
  match xs.filterMap id with
  | [] => none
  | vs => some (vs.all (· = true))

/-- Backend `LOGICAL_OR`: NULLs are skipped; NULL when no non-NULL input. -/
def sqlLogicalOr (xs : List (Option Bool)) : Option Bool :=
  match xs.filterMap id with
  | [] => none
  | vs => some (vs.any (· = true))

/-- Pointwise `column != 0` over the group's values (NULL stays NULL). -/
def neZeroColumn (column : List (Option Int)) : List (Option Bool) :=
  column.map (Option.map (fun v => v != 0))

/-- `AllOp` applied to a group of values. -/
def allOpEval (column : List (Option Int)) : Bool :=
  (sqlLogicalAnd (neZeroColumn column)).getD true

/-- `AnyOp` applied to a group of values. -/
def anyOpEval (column : List (Option Int)) : Bool :=
  (sqlLogicalOr (neZeroColumn column)).getD true

/-! ## Ordering model

The classes `OrderingColumnReference` and `ExpressionOrdering` live in
`bigframes/core/` and `bigframes/core/ordering.py`, which are not part of the
sources here; they are modelled from the spec (§3, §4.1). -/

inductive OrderingDirection where
  | ascending
  | descending
deriving DecidableEq, Repr

/-- Modelled from the spec: `OrderingColumnReference` is
`{ column_id, direction (ASC|DESC), null_position }` (missing
`bigframes/core/ordering.py`); `with_name` replaces the column id. -/
structure OrderingColumnReference where
  column_id : String
  direction : OrderingDirection := .ascending
deriving DecidableEq, Repr

def OrderingColumnReference.with_name
    (ref : OrderingColumnReference) (name : String) : OrderingColumnReference :=
  { ref with column_id := name }

/-- Modelled from the spec: `ExpressionOrdering` (the `OrderingSpec` of §3,
missing `bigframes/core/ordering.py`) carries ordering value columns, an
optional total-order id column, the `is_sequential` flag and the optional
fixed-width `encoding_size`. -/
structure ExpressionOrdering where
  ordering_value_columns : List OrderingColumnReference := []
  ordering_id_column : Option OrderingColumnReference := none
  is_sequential : Bool := false
  ordering_encoding_size : Option Nat := none
deriving DecidableEq, Repr

/-- Modelled from the spec: the total-order id column's name, when set. -/
def ExpressionOrdering.ordering_id (o : ExpressionOrdering) : Option String :=
  o.ordering_id_column.map (·.column_id)

/-- Modelled from the spec (§4.1): `is_total()` returns true only if the
total-order id column is set. -/
def ExpressionOrdering.is_total (o : ExpressionOrdering) : Bool :=
  o.ordering_id_column.isSome

/-- Modelled from the spec (§4.1): `with_ordering_columns` replaces the sort
keys while preserving the total-order id column. -/
def ExpressionOrdering.with_ordering_columns
    (o : ExpressionOrdering) (cols : List OrderingColumnReference) :
    ExpressionOrdering :=
  { o with ordering_value_columns := cols }

/-- Modelled from the spec: `with_ordering_id` sets the total-order id
column to the named column. -/
def ExpressionOrdering.with_ordering_id
    (o : ExpressionOrdering) (name : String) : ExpressionOrdering :=
  { o with ordering_id_column := some ⟨name, .ascending⟩ }

/-! ## Logical table expressions

`BigFramesExpr` itself lives in the missing `bigframes/core/__init__.py`; the
fields below are the ones `join_by_row_identity` reads (spec §3, LTE).  The
`table` field stands for the identity of the backend relation (`left.table
.equals(right.table)` compares relation identity).  The `ordering` field is
optional: the join's `if left._ordering and right._ordering` guard tests its
presence. -/

structure BigFramesExpr where
  table : Nat
  columns : List (String × ColExpr) := []
  meta_columns : List (String × ColExpr) := []
  predicates : List ColExpr := []
  ordering : Option ExpressionOrdering := none
deriving DecidableEq, Repr

/-! ## Row-identity join (`bigframes/core/joins/row_identity.py`) -/

def SUPPORTED_ROW_IDENTITY_HOW : List String := ["outer", "left", "inner"]

def map_left_id (left_side_id : String) : String := left_side_id ++ "_x"

def map_right_id (right_side_id : String) : String := right_side_id ++ "_y"

/-- `_reduce_predicate_list`: AND-fold of a predicate list; a single
predicate is returned unchanged; the empty list is a `ValueError` (`none`
here). -/
def _reduce_predicate_list (predicate_list : List ColExpr) : Option ColExpr :=
  match predicate_list with
  | [] => none
  | p :: ps => some (ps.foldl .and p)

/-- `_get_relative_predicates`: predicates present on only one side.  When
both sides have predicates the source takes Python set differences
`set(left) - set(right)` / `set(right) - set(left)`; the model fixes the
source-list order for these unordered sets. -/
def _get_relative_predicates (left_predicates right_predicates : List ColExpr) :
    List ColExpr × List ColExpr :=
  if left_predicates ≠ [] ∧ right_predicates ≠ [] then
    (left_predicates.filter (fun p => decide (p ∉ right_predicates)),
     right_predicates.filter (fun p => decide (p ∉ left_predicates)))
  else
    (left_predicates, right_predicates)

/-- `_join_predicates`: combines the two sides' predicate lists per join
type.  `outer` reduces each side and ORs them (empty either side → no
predicates); `left` keeps the left predicates; `inner` appends the
right-relative predicates to the left predicates. -/
def _join_predicates (left_predicates right_predicates : List ColExpr)
    (join_type : String) : Except String (List ColExpr) :=
  if join_type = "outer" then
    match left_predicates, right_predicates with
    | [], _ => .ok []
    | _, [] => .ok []
    | l :: ls, r :: rs =>
        .ok [ColExpr.or (ls.foldl .and l) (rs.foldl .and r)]
  else if join_type = "left" then
    .ok left_predicates
  else if join_type = "inner" then
    let right_relative_predicates :=
      (_get_relative_predicates left_predicates right_predicates).2
    .ok (left_predicates ++ right_relative_predicates)
  else
    .error ("Unsupported join_type: " ++ join_type)

/-- `_mask_value`: wraps a value in `CASE WHEN reduce(predicates) THEN value
ELSE NULL END`; a missing or empty predicate list leaves the value
unmasked. -/
def _mask_value (value : ColExpr) (predicates : Option (List ColExpr)) :
    ColExpr :=
  match predicates with
  | some (p :: ps) => .caseWhen (ps.foldl .and p) value (.lit none)
  | _ => value

/-- Errors surfaced by `join_by_row_identity`.  `notImplemented` and
`valueError` are the two documented raises; `unboundLocal` models the Python
`UnboundLocalError` raised when a local variable (`meta_columns`) is read
without having been assigned. -/
inductive JoinError where
  | notImplemented (msg : String)
  | valueError (msg : String)
  | unboundLocal (name : String)
deriving DecidableEq, Repr

/-- `join_by_row_identity(left, right, how)`: the row-identity fast path.
Checks the supported `how` values and relation identity, combines the
predicate lists, masks each side's columns by the other-relative predicates
according to `how`, and (only when both sides carry an ordering) builds the
suffixed meta columns and the merged ordering.  `meta_columns` is assigned
only inside the both-orderings branch but read unconditionally when the
result is constructed, so the orderings-absent path is an
`UnboundLocalError`. -/
def join_by_row_identity (left right : BigFramesExpr) (how : String) :
    Except JoinError BigFramesExpr :=
  if how ∉ SUPPORTED_ROW_IDENTITY_HOW then
    .error (.notImplemented "Only how='outer','left','inner' currently supported")
  else if left.table ≠ right.table then
    .error (.valueError "Cannot combine objects without an explicit join/merge key.")
  else
    let left_predicates := left.predicates
    let right_predicates := right.predicates
    let relatives := _get_relative_predicates left_predicates right_predicates
    let left_relative_predicates := relatives.1
    let right_relative_predicates := relatives.2
    let combined_predicates :=
      if left_predicates ≠ [] ∨ right_predicates ≠ [] then
        match _join_predicates left_predicates right_predicates how with
        | .ok ps => ps
        | .error _ => []
      else []
    let left_mask :=
      if how ∈ ["right", "outer"] then some left_relative_predicates else none
    let right_mask :=
      if how ∈ ["left", "outer"] then some right_relative_predicates else none
    let joined_columns :=
      (left.columns.map fun kv => (map_left_id kv.1, _mask_value kv.2 left_mask)) ++
      (right.columns.map fun kv => (map_right_id kv.1, _mask_value kv.2 right_mask))
    match left.ordering, right.ordering with
    | some left_ordering, some right_ordering =>
        let meta_columns :=
          (left.meta_columns.map fun kv => (map_left_id kv.1, kv.2)) ++
          (right.meta_columns.map fun kv => (map_right_id kv.1, kv.2))
        let new_ordering_id := (left_ordering.ordering_id).map map_left_id
        let new_ordering := left_ordering.with_ordering_columns
          ((left_ordering.ordering_value_columns.map fun ref =>
              ref.with_name (map_left_id ref.column_id)) ++
           (right_ordering.ordering_value_columns.map fun ref =>
              ref.with_name (map_right_id ref.column_id)))
        let new_ordering :=
          match new_ordering_id with
          | some oid => new_ordering.with_ordering_id oid
          | none => new_ordering
        .ok { table := left.table
              columns := joined_columns
              meta_columns := meta_columns
              ordering := some new_ordering
              predicates := combined_predicates }
    | _, _ => .error (.unboundLocal "meta_columns")

/-! ## Type mapping (`bigframes/dtypes.py`)

The ibis dtype objects and pandas dtype objects that appear in the mapping
tables are finite enumerations; constructors stand for the distinct Python
objects. -/

inductive IbisDtype where
  | boolean
  | float64
  | int64
  | string
  | date
  | time
  | timestamp (timezone : Option String)
  | binary
  | json
  | decimal (precision scale : Nat)
  | geography
deriving DecidableEq, Repr

inductive BigframesDtype where
  | booleanDtype
  | float64Dtype
  | int64Dtype
  | stringDtype
  | arrowDate32
  | arrowTime64us
  | arrowTimestampUs
  | arrowTimestampUsUtc
  | npObject
  | geometryDtype
deriving DecidableEq, Repr

/-- `str(dtype)` / `dtype.name` for each pandas dtype (pandas renders
`pd.StringDtype(storage="pyarrow")` as plain `"string"`). -/
def bigframesDtypeName : BigframesDtype → String
  | .booleanDtype => "boolean"
  | .float64Dtype => "Float64"
  | .int64Dtype => "Int64"
  | .stringDtype => "string"
  | .arrowDate32 => "date32[day][pyarrow]"
  | .arrowTime64us => "time64[us][pyarrow]"
  | .arrowTimestampUs => "timestamp[us][pyarrow]"
  | .arrowTimestampUsUtc => "timestamp[us, tz=UTC][pyarrow]"
  | .npObject => "object"
  | .geometryDtype => "geometry"

/-- `BIDIRECTIONAL_MAPPINGS`: the eight (ibis, pandas) pairs. -/
def BIDIRECTIONAL_MAPPINGS : List (IbisDtype × BigframesDtype) :=
  [ (.boolean, .booleanDtype),
    (.float64, .float64Dtype),
    (.int64, .int64Dtype),
    (.string, .stringDtype),
    (.date, .arrowDate32),
    (.time, .arrowTime64us),
    (.timestamp none, .arrowTimestampUs),
    (.timestamp (some "UTC"), .arrowTimestampUsUtc) ]

/-- `BIGFRAMES_TO_IBIS = {pandas: ibis for ibis, pandas in BIDIRECTIONAL_MAPPINGS}`. -/
def BIGFRAMES_TO_IBIS (dtype : BigframesDtype) : Option IbisDtype :=
  (BIDIRECTIONAL_MAPPINGS.find? (fun p => p.2 = dtype)).map (·.1)

/-- `IBIS_TO_BIGFRAMES`: the bidirectional pairs (the `nullable=False`
copies collapse onto the same constructors here) plus the read-only extra
entries added by the two `update` calls. -/
def IBIS_TO_BIGFRAMES (dtype : IbisDtype) : Option BigframesDtype :=
  match (BIDIRECTIONAL_MAPPINGS.find? (fun p => p.1 = dtype)).map (·.2) with
  | some d => some d
  | none =>
    match dtype with
    | .binary => some .npObject
    | .json => some .npObject
    | .decimal 38 9 => some .npObject
    | .decimal 76 38 => some .npObject
    | .geography => some .geometryDtype
    | _ => none

/-- `ibis_dtype_to_bigframes_dtype`: table lookup, `ValueError` (`none`) for
an unexpected ibis type.  (The `Array`/`Struct` special case returns
`np.dtype("O")` before the lookup; those constructors are not modelled as
they are outside every mapping table.) -/
def ibis_dtype_to_bigframes_dtype (ibis_dtype : IbisDtype) :
    Option BigframesDtype :=
  IBIS_TO_BIGFRAMES ibis_dtype

/-- `BIGFRAMES_STRING_TO_BIGFRAMES`: name-string → dtype over the keys of
`BIGFRAMES_TO_IBIS`, plus the special `"string[pyarrow]"` alias. -/
def BIGFRAMES_STRING_TO_BIGFRAMES (type_string : String) :
    Option BigframesDtype :=
  if type_string = "string[pyarrow]" then some .stringDtype
  else
    ((BIDIRECTIONAL_MAPPINGS.find?
        (fun p => bigframesDtypeName p.2 = type_string)).map (·.2))

/-- `bigframes_dtype_to_ibis_dtype`: stringifies the dtype, resolves it
through `BIGFRAMES_STRING_TO_BIGFRAMES`, then maps through
`BIGFRAMES_TO_IBIS`; `ValueError` (`none`) for an unsupported dtype. -/
def bigframes_dtype_to_ibis_dtype (bigframes_dtype : BigframesDtype) :
    Option IbisDtype :=
  match BIGFRAMES_STRING_TO_BIGFRAMES (bigframesDtypeName bigframes_dtype) with
  | some d => BIGFRAMES_TO_IBIS d
  | none => none

/-! ## Order-id encoding and composition
(`bigframes/core/indexes/index.py` and the missing `bigframes/core/ordering.py`) -/

/-- The `w` decimal digits of `n`, most significant first (`n < 10 ^ w`). -/
def natDigits : Nat → Nat → List Nat
  | 0, _ => []
  | w + 1, n => (n / 10 ^ w) :: natDigits w (n % 10 ^ w)

/-- Modelled from the spec (§4.3, missing `bigframes/core/ordering.py`):
`stringify_order_id(id, width)` converts a total-order id to a fixed-width,
lexicographically-sortable decimal string, zero-extended on the left to
`width` characters. -/
def stringify_order_id (order_id : Nat) (width : Nat) : String :=
  String.mk ((natDigits width order_id).map Nat.digitChar)

/-- `_merge_order_ids`: `how="right"` swaps the sides and delegates to
`"left"`; otherwise the composed order id is the concatenation of the two
fixed-width encodings. -/
def _merge_order_ids (left_id left_encoding_size right_id right_encoding_size : Nat)
    (how : String) : String :=
  if how = "right" then
    _merge_order_ids right_id right_encoding_size left_id left_encoding_size "left"
  else
    stringify_order_id left_id left_encoding_size ++
      stringify_order_id right_id right_encoding_size
termination_by if how = "right" then 1 else 0
decreasing_by simp_all

/-- The ordering that `Index.join`'s explicit-join path constructs for the
combined expression: the merged order-id column is the total-order id and
`ordering_encoding_size` is the sum of the two sides' encoding sizes. -/
def indexJoinResultOrdering (new_order_id : String)
    (left_ordering_encoding_size right_ordering_encoding_size : Nat) :
    ExpressionOrdering :=
  { ordering_id_column := some ⟨new_order_id, .ascending⟩
    ordering_encoding_size :=
      some (left_ordering_encoding_size + right_ordering_encoding_size) }

/-! ## Sequential ordering (`Session._create_sequential_ordering`) -/

/-- A materialized backend table: named columns of per-row nullable values. -/
structure IbisTable where
  numRows : Nat
  columns : List (String × List (Option Int)) := []
deriving DecidableEq, Repr

/-- `table.mutate(**{name: col})`: appends a derived column. -/
def IbisTable.mutate (table : IbisTable) (name : String)
    (values : List (Option Int)) : IbisTable :=
  { table with columns := table.columns ++ [(name, values)] }

/-- Column lookup by name. -/
def IbisTable.getColumn (table : IbisTable) (name : String) :
    Option (List (Option Int)) :=
  (table.columns.find? (fun kv => kv.1 = name)).map (·.2)

/-- Modelled from the spec (§6: "materializes a dense row-number column"):
`ibis.row_number()` over an `N`-row relation produces the 0-based values
`0, …, N-1`. -/
def rowNumberColumn (numRows : Nat) : List (Option Int) :=
  (List.range numRows).map (fun i => some (Int.ofNat i))

/-- `Session._create_sequential_ordering`: mutates the table with a
row-number column under a fresh generated name, round-trips it through a
session table (the identity on rows and columns in this model), and returns
it with an `ExpressionOrdering` whose total-order id column is the new
column and whose `is_sequential` flag is set. -/
def _create_sequential_ordering (table : IbisTable)
    (default_ordering_name : String) : IbisTable × ExpressionOrdering :=
  let default_ordering_col := rowNumberColumn table.numRows
  let table := table.mutate default_ordering_name default_ordering_col
  let ordering_reference : OrderingColumnReference :=
    ⟨default_ordering_name, .ascending⟩
  let ordering : ExpressionOrdering :=
    { ordering_id_column := some ordering_reference, is_sequential := true }
  (table, ordering)

/-! ## Helper lemmas -/

@[simp] theorem exceptOkBind {ε α β : Type} (a : α) (f : α → Except ε β) :
    Except.ok a >>= f = f a := rfl

theorem asIntOpt_map_int (v : Option Int) : asIntOpt (v.map Val.int) = .ok v := by
  cases v <;> rfl

theorem eval_mul_zero (row : Row) (x : ColExpr) (vx : Option Int)
    (hx : eval row x = .ok (vx.map .int)) :
    eval row (.mul _ZERO x) = .ok (vx.map (fun _ => Val.int 0)) := by
  simp only [eval, _ZERO, hx]
  cases vx <;> simp [asIntOpt, liftInt2]

/-- The negated-dividend law for the backend (truncating) remainder. -/
theorem neg_tmod_left (a b : Int) : (-a).tmod b = -(a.tmod b) := by
  simp [Int.tmod_def, Int.neg_tdiv, Int.mul_neg, Int.neg_sub]
  ring

/-- C3 driver: evaluating `mod_op x y` on a row where the divisor is zero. -/
theorem eval_mod_op_zero (row : Row) (x y : ColExpr) (vx : Option Int)
    (hx : eval row x = .ok (vx.map .int))
    (hy : eval row y = .ok (some (.int 0))) :
    eval row (mod_op x y) = .ok (vx.map (fun _ => Val.int 0)) := by
  unfold mod_op
  rcases hl : isLiteralZero y with _ | _
  · simp only [if_neg (by simp [hl] : ¬ (isLiteralZero y = true))]
    simp only [eval, hy, _ZERO]
    simp only [exceptOkBind, asIntOpt, liftCmp, asBoolOpt]
    rw [hx]
    cases vx <;> simp [asIntOpt, liftInt2]
  · simp only [if_pos hl]
    exact eval_mul_zero row x vx hx

/-- C3 driver: evaluating `floordiv_op x y` on a row where the divisor is
zero. -/
theorem eval_floordiv_op_zero (row : Row) (x y : ColExpr) (vx : Option Int)
    (hx : eval row x = .ok (vx.map .int))
    (hy : eval row y = .ok (some (.int 0))) :
    eval row (floordiv_op x y) = .ok (vx.map (fun _ => Val.int 0)) := by
  unfold floordiv_op
  simp only [eval, hy, _ZERO]
  simp only [exceptOkBind, asIntOpt, liftCmp, asBoolOpt]
  rw [hx]
  cases vx <;> simp [asIntOpt, liftInt2]

theorem filterMap_id_replicate_none (n : Nat) :
    List.filterMap id (List.replicate n (none : Option Bool)) = [] := by
  induction n with
  | zero => rfl
  | succ k ih => simp [List.replicate_succ, List.filterMap_cons, ih]

/-! ## Claim theorems -/

/-- C1 counterexample: the claim asserts `FirstOp.skips_nulls = false`, but
`FirstOp` does not override the property and inherits `True` from
`WindowOp`. -/
theorem firstOp_skips_nulls_not_false :
    ¬ (skips_nulls OpClass.firstOp = false) := by decide

/-- C1 (amended): `RankOp` and `ShiftOp` (and `CountOp`) override
`skips_nulls` to false; `FirstOp` has no override and takes the `WindowOp`
default; every operator without an override — all the ordinary aggregates —
has `skips_nulls` true, the base-class default. -/
theorem rank_shift_skips_nulls_first_defaults :
    skips_nulls OpClass.rankOp = false ∧
    skips_nulls OpClass.shiftOp = false ∧
    skips_nulls OpClass.countOp = false ∧
    skipsNullsOverride OpClass.firstOp = none ∧
    skips_nulls OpClass.firstOp = windowOpSkipsNullsDefault ∧
    windowOpSkipsNullsDefault = true ∧
    skips_nulls OpClass.sumOp = true ∧
    skips_nulls OpClass.meanOp = true ∧
    skips_nulls OpClass.productOp = true ∧
    skips_nulls OpClass.maxOp = true ∧
    skips_nulls OpClass.minOp = true ∧
    skips_nulls OpClass.stdOp = true ∧
    skips_nulls OpClass.varOp = true ∧
    skips_nulls OpClass.allOp = true ∧
    skips_nulls OpClass.anyOp = true := by decide

/-- C3: with a zero divisor (a literal zero or a zero-valued expression),
`mod_op` and `floordiv_op` evaluate without any error and produce NULL
exactly when the dividend is NULL, and the value `0` otherwise — the
division-by-zero branch of each operator is guarded and unreachable. -/
theorem mod_floordiv_zero_safety
    (row : Row) (x y : ColExpr) (vx : Option Int)
    (hx : eval row x = .ok (vx.map .int))
    (hy : eval row y = .ok (some (.int 0))) :
    eval row (mod_op x y) = .ok (vx.map (fun _ => Val.int 0)) ∧
    eval row (floordiv_op x y) = .ok (vx.map (fun _ => Val.int 0)) :=
  ⟨eval_mod_op_zero row x y vx hx hy, eval_floordiv_op_zero row x y vx hx hy⟩

/-- C3 witness: a NULL dividend and a non-null dividend `7`, both over the
literal divisor `0`. -/
theorem mod_floordiv_zero_safety_witness :
    (eval (fun _ => none) (mod_op (.lit none) (.lit (some (.int 0)))) =
        .ok none ∧
     eval (fun _ => none) (floordiv_op (.lit none) (.lit (some (.int 0)))) =
        .ok none) ∧
    (eval (fun _ => none) (mod_op (.lit (some (.int 7))) (.lit (some (.int 0)))) =
        .ok (some (.int 0)) ∧
     eval (fun _ => none) (floordiv_op (.lit (some (.int 7))) (.lit (some (.int 0)))) =
        .ok (some (.int 0))) :=
  ⟨mod_floordiv_zero_safety (fun _ => none) _ _ none rfl rfl,
   mod_floordiv_zero_safety (fun _ => none) _ _ (some 7) rfl rfl⟩

/-- C8: `AllOp` and `AnyOp` both evaluate to `true` on the empty group and
on any group whose inputs are all NULL, overriding the backend's NULL
result via `fillna(True)`. -/
theorem all_any_empty_group_true :
    allOpEval [] = true ∧ anyOpEval [] = true ∧
    ∀ n : Nat, allOpEval (List.replicate n none) = true ∧
               anyOpEval (List.replicate n none) = true := by
  refine ⟨rfl, rfl, fun n => ?_⟩
  have h : neZeroColumn (List.replicate n none) = List.replicate n none := by
    simp [neZeroColumn]
  constructor
  · simp [allOpEval, sqlLogicalAnd, h, filterMap_id_replicate_none]
  · simp [anyOpEval, sqlLogicalOr, h, filterMap_id_replicate_none]

/-- C7: for every backend type in the eight-entry bidirectional enumeration,
mapping to the user-facing dtype and back is the identity. -/
theorem type_mapping_round_trip :
    ∀ p ∈ BIDIRECTIONAL_MAPPINGS,
      ibis_dtype_to_bigframes_dtype p.1 = some p.2 ∧
      bigframes_dtype_to_ibis_dtype p.2 = some p.1 ∧
      (ibis_dtype_to_bigframes_dtype p.1).bind bigframes_dtype_to_ibis_dtype =
        some p.1 := by decide

/-- C7 witness: the boolean entry of the bidirectional mapping. -/
theorem type_mapping_round_trip_witness :
    ibis_dtype_to_bigframes_dtype IbisDtype.boolean =
        some BigframesDtype.booleanDtype ∧
    bigframes_dtype_to_ibis_dtype BigframesDtype.booleanDtype =
        some IbisDtype.boolean ∧
    (ibis_dtype_to_bigframes_dtype IbisDtype.boolean).bind
        bigframes_dtype_to_ibis_dtype = some IbisDtype.boolean :=
  type_mapping_round_trip (IbisDtype.boolean, BigframesDtype.booleanDtype)
    (by decide)

/-- C6: the ordering returned by `_create_sequential_ordering` has its
total-order id column set (`is_total()` is true), has `is_sequential = true`,
and — provided the generated ordering name is fresh for the table — the
order column's values over the `N` rows are exactly the dense sequence
`0, …, N-1`. -/
theorem create_sequential_ordering_total
    (table : IbisTable) (name : String)
    (hfresh : table.getColumn name = none) :
    ((_create_sequential_ordering table name).2.is_total = true) ∧
    ((_create_sequential_ordering table name).2.is_sequential = true) ∧
    ((_create_sequential_ordering table name).1.getColumn name =
      some ((List.range table.numRows).map (fun i => some (Int.ofNat i)))) := by
  refine ⟨rfl, rfl, ?_⟩
  have hnone : table.columns.find? (fun kv => kv.1 = name) = none := by
    unfold IbisTable.getColumn at hfresh
    exact Option.map_eq_none'.mp hfresh
  unfold _create_sequential_ordering IbisTable.mutate IbisTable.getColumn
  simp [List.find?_append, hnone, rowNumberColumn, List.find?]

/-- C6 witness: a two-row table with one column and the fresh ordering name
`"bigframes_ordering_0"`. -/
theorem create_sequential_ordering_total_witness :
    ((_create_sequential_ordering
        ⟨2, [("a", [some 1, none])]⟩ "bigframes_ordering_0").2.is_total = true) ∧
    ((_create_sequential_ordering
        ⟨2, [("a", [some 1, none])]⟩ "bigframes_ordering_0").2.is_sequential = true) ∧
    ((_create_sequential_ordering
        ⟨2, [("a", [some 1, none])]⟩ "bigframes_ordering_0").1.getColumn
          "bigframes_ordering_0" =
      some [some 0, some 1]) :=
  create_sequential_ordering_total ⟨2, [("a", [some 1, none])]⟩
    "bigframes_ordering_0" (by decide)

/-- C9: the row-identity join's combined predicate list per `how`: `left`
keeps exactly the left predicates; `inner` is the left predicates followed
by the right-relative predicates (those on the right and not on the left —
left-relative ones are not re-added); `outer` with both sides non-empty is
the single predicate `reduce-AND(left) OR reduce-AND(right)`. -/
theorem join_predicates_by_how :
    (∀ l r : List ColExpr, _join_predicates l r "left" = .ok l) ∧
    (∀ l r : List ColExpr,
        _join_predicates l r "inner" =
          .ok (l ++ (_get_relative_predicates l r).2) ∧
        ∀ p : ColExpr,
          p ∈ (_get_relative_predicates l r).2 ↔ (p ∈ r ∧ p ∉ l)) ∧
    (∀ (p : ColExpr) (ps : List ColExpr) (q : ColExpr) (qs : List ColExpr),
        _join_predicates (p :: ps) (q :: qs) "outer" =
          .ok [ColExpr.or (ps.foldl .and p) (qs.foldl .and q)]) := by
  refine ⟨fun l r => rfl, fun l r => ⟨rfl, fun p => ?_⟩, fun p ps q qs => rfl⟩
  unfold _get_relative_predicates
  by_cases hl : l = []
  · subst hl
    simp
  · by_cases hr : r = []
    · subst hr
      simp [hl]
    · simp [hl, hr, List.mem_filter]

/-- C10: whenever either side of a row-identity join lacks an ordering, the
join neither returns a result nor raises one of the two documented errors:
it fails with the `UnboundLocalError` for `meta_columns`, which is assigned
only inside the both-orderings branch but read unconditionally. -/
theorem join_missing_ordering_unbound_local
    (left right : BigFramesExpr) (how : String)
    (hhow : how ∈ SUPPORTED_ROW_IDENTITY_HOW)
    (htable : left.table = right.table)
    (hord : left.ordering = none ∨ right.ordering = none) :
    join_by_row_identity left right how =
      .error (.unboundLocal "meta_columns") := by
  unfold join_by_row_identity
  rw [if_neg (by simp [hhow]), if_neg (by simp [htable])]
  rcases hord with h | h
  · rw [h]
  · rw [h]
    cases left.ordering <;> rfl

/-- C10 witness: two ordering-less expressions over relation `0`, joined
with `how = "left"`. -/
theorem join_missing_ordering_unbound_local_witness :
    join_by_row_identity ⟨0, [], [], [], none⟩ ⟨0, [], [], [], none⟩ "left" =
      .error (.unboundLocal "meta_columns") :=
  join_missing_ordering_unbound_local _ _ "left" (by decide) rfl (Or.inl rfl)

theorem digitChar_lt_of_lt :
    ∀ d1 < 10, ∀ d2 < 10, d1 < d2 → Nat.digitChar d1 < Nat.digitChar d2 := by
  decide

theorem natDigits_length (w n : Nat) : (natDigits w n).length = w := by
  induction w generalizing n with
  | zero => rfl
  | succ k ih => simp [natDigits, ih]

/-- Fixed-width decimal digit strings are lexicographically monotone in the
encoded number, whatever suffixes follow: the two digit blocks differ before
either suffix is reached. -/
theorem natDigits_append_lt :
    ∀ (w a b : Nat) (s t : List Char), a < b → b < 10 ^ w →
      List.lt ((natDigits w a).map Nat.digitChar ++ s)
              ((natDigits w b).map Nat.digitChar ++ t) := by
  intro w
  induction w with
  | zero =>
    intro a b s t hab hb
    simp [Nat.pow_zero] at hb
    omega
  | succ k ih =>
    intro a b s t hab hb
    have h10 : 0 < 10 ^ k := Nat.pos_pow_of_pos k (by omega)
    have hbd : b / 10 ^ k < 10 := by
      rw [Nat.div_lt_iff_lt_mul h10]
      calc b < 10 ^ (k + 1) := hb
        _ = 10 * 10 ^ k := by rw [Nat.pow_succ]; ring
    have hd : a / 10 ^ k ≤ b / 10 ^ k := Nat.div_le_div_right (le_of_lt hab)
    simp only [natDigits, List.map_cons, List.cons_append]
    rcases lt_or_eq_of_le hd with hlt | heq
    · exact List.lt.head _ _
        (digitChar_lt_of_lt (a / 10 ^ k) (lt_of_lt_of_le hlt (le_of_lt hbd))
          (b / 10 ^ k) hbd hlt)
    · have hda := Nat.div_add_mod a (10 ^ k)
      have hdb := Nat.div_add_mod b (10 ^ k)
      rw [heq] at hda
      refine List.lt.tail ?_ ?_
        (ih (a % 10 ^ k) (b % 10 ^ k) s t (by omega) (Nat.mod_lt b h10))
      · rw [heq]; exact Char.lt_irrefl _
      · rw [heq]; exact Char.lt_irrefl _

/-- C4: composing two fixed-width order encodings by concatenation is
monotone in the left side: if `a` strictly precedes `b` on the left (both
encodable at width `w1`), then for every fixed right-side row `r`, the
merged order id for `a` sorts lexicographically before the one for `b`;
the merged id is `w1 + w2` characters wide, and the ordering built for the
join result records `encoding_size = w1 + w2`. -/
theorem order_composition_monotonic
    (a b w1 r w2 : Nat) (oid : String) (how : String)
    (hab : a < b) (hb : b < 10 ^ w1) (hhow : how ≠ "right") :
    _merge_order_ids a w1 r w2 how < _merge_order_ids b w1 r w2 how ∧
    (_merge_order_ids a w1 r w2 how).length = w1 + w2 ∧
    (indexJoinResultOrdering oid w1 w2).ordering_encoding_size =
      some (w1 + w2) := by
  refine ⟨?_, ?_, rfl⟩
  · unfold _merge_order_ids
    rw [if_neg hhow, if_neg hhow]
    rw [String.lt_iff_toList_lt]
    refine (List.lt_iff_lex_lt _ _).mp ?_
    show List.lt ((stringify_order_id a w1 ++ stringify_order_id r w2).data)
      ((stringify_order_id b w1 ++ stringify_order_id r w2).data)
    rw [String.data_append, String.data_append]
    exact natDigits_append_lt w1 a b _ _ hab hb
  · unfold _merge_order_ids
    rw [if_neg hhow]
    rw [String.length_append]
    simp [stringify_order_id, String.length_mk, natDigits_length]

/-- C4 witness: left rows `1 < 2` at width 1, right row `0` at width 1,
composed for a `how = "left"` join. -/
theorem order_composition_monotonic_witness :
    _merge_order_ids 1 1 0 1 "left" < _merge_order_ids 2 1 0 1 "left" ∧
    (_merge_order_ids 1 1 0 1 "left").length = 1 + 1 ∧
    (indexJoinResultOrdering "oid" 1 1).ordering_encoding_size =
      some (1 + 1) :=
  order_composition_monotonic 1 2 1 0 1 "oid" "left" (by decide) (by decide)
    (by decide)

/-- Evaluating `mod_op` on non-null literals with a non-zero divisor: the
backend remainder, corrected to `y + remainder` exactly when it disagrees
in sign with the divisor. -/
theorem eval_mod_op_lit (row : Row) (x y : Int) (hy : y ≠ 0) :
    eval row (mod_op (.lit (some (.int x))) (.lit (some (.int y)))) =
      .ok (some (.int
        (if (y < 0 ∧ 0 < Int.tmod x y) ∨ (0 < y ∧ Int.tmod x y < 0)
         then y + Int.tmod x y else Int.tmod x y))) := by
  have hlit : isLiteralZero (.lit (some (.int y))) = false := by
    simp [isLiteralZero, hy]
  unfold mod_op
  rw [hlit]
  simp only [Bool.false_eq_true, if_false]
  simp only [eval, exceptOkBind, asIntOpt, asBoolOpt, liftCmp, liftInt2, _ZERO]
  rw [if_neg hy]
  simp only [exceptOkBind, asIntOpt, asBoolOpt, decide_eq_true_eq]
  rcases lt_trichotomy y 0 with hneg | h0 | hpos
  · rcases lt_trichotomy (Int.tmod x y) 0 with ht | ht | ht
    · simp [kleeneAnd, hy, hneg, ht, not_lt_of_gt hneg, not_lt_of_gt ht, not_lt.mpr (le_of_lt ht)]
    · simp [kleeneAnd, hy, hneg, ht, not_lt_of_gt hneg]
    · simp [kleeneAnd, hy, hneg, ht, not_lt_of_gt hneg, not_lt_of_gt ht]
  · exact absurd h0 hy
  · rcases lt_trichotomy (Int.tmod x y) 0 with ht | ht | ht
    · simp [kleeneAnd, hy, hpos, ht, not_lt_of_gt hpos, not_lt_of_gt ht]
    · simp [kleeneAnd, hy, hpos, ht, not_lt_of_gt hpos]
    · simp [kleeneAnd, hy, hpos, ht, not_lt_of_gt hpos, not_lt_of_gt ht, not_lt.mpr (le_of_lt ht)]

/-- C5: for non-null integer literals with `y ≠ 0`, `mod_op` evaluates to
the backend remainder corrected to `y + remainder` exactly when remainder
and divisor disagree in sign; when the remainder is non-zero the result's
sign equals the divisor's sign. -/
theorem mod_sign_of_divisor (row : Row) (x y : Int) (hy : y ≠ 0)
    (ht : Int.tmod x y ≠ 0) :
    eval row (mod_op (.lit (some (.int x))) (.lit (some (.int y)))) =
      .ok (some (.int
        (if (y < 0 ∧ 0 < Int.tmod x y) ∨ (0 < y ∧ Int.tmod x y < 0)
         then y + Int.tmod x y else Int.tmod x y))) ∧
    Int.sign (if (y < 0 ∧ 0 < Int.tmod x y) ∨ (0 < y ∧ Int.tmod x y < 0)
              then y + Int.tmod x y else Int.tmod x y) = Int.sign y := by
  refine ⟨eval_mod_op_lit row x y hy, ?_⟩
  rcases lt_trichotomy y 0 with hneg | h0 | hpos
  · have hyy : Int.tmod x y = Int.tmod x (-y) := by
      conv_lhs => rw [show y = -(-y) by ring]
      rw [Int.tmod_neg]
    have h1 : Int.tmod x (-y) < -y := Int.tmod_lt_of_pos x (by omega)
    have h2 : -(Int.tmod x (-y)) < -y := by
      rw [← neg_tmod_left]
      exact Int.tmod_lt_of_pos (-x) (by omega)
    by_cases hc : (y < 0 ∧ 0 < Int.tmod x y) ∨ (0 < y ∧ Int.tmod x y < 0)
    · rw [if_pos hc]
      have hres : y + Int.tmod x y < 0 := by omega
      rw [Int.sign_eq_neg_one_iff_neg.mpr hres,
        Int.sign_eq_neg_one_iff_neg.mpr hneg]
    · rw [if_neg hc]
      rcases not_or.mp hc with ⟨hc1, _⟩
      have hres : Int.tmod x y < 0 := by
        rcases not_and_or.mp hc1 with h | h
        · exact absurd hneg h
        · omega
      rw [Int.sign_eq_neg_one_iff_neg.mpr hres,
        Int.sign_eq_neg_one_iff_neg.mpr hneg]
  · exact absurd h0 hy
  · have h1 : Int.tmod x y < y := Int.tmod_lt_of_pos x hpos
    have h2 : -(Int.tmod x y) < y := by
      rw [← neg_tmod_left]
      exact Int.tmod_lt_of_pos (-x) hpos
    by_cases hc : (y < 0 ∧ 0 < Int.tmod x y) ∨ (0 < y ∧ Int.tmod x y < 0)
    · rw [if_pos hc]
      have hres : 0 < y + Int.tmod x y := by omega
      rw [Int.sign_eq_one_iff_pos.mpr hres, Int.sign_eq_one_iff_pos.mpr hpos]
    · rw [if_neg hc]
      rcases not_or.mp hc with ⟨_, hc2⟩
      have hres : 0 < Int.tmod x y := by
        rcases not_and_or.mp hc2 with h | h
        · exact absurd hpos h
        · omega
      rw [Int.sign_eq_one_iff_pos.mpr hres, Int.sign_eq_one_iff_pos.mpr hpos]

/-- C5 witness: `x = -7`, `y = 3`: the backend remainder is `-1`, the
corrected result is `3 + (-1) = 2`, whose sign matches the divisor's. -/
theorem mod_sign_of_divisor_witness :
    eval (fun _ => none)
        (mod_op (.lit (some (.int (-7)))) (.lit (some (.int 3)))) =
      .ok (some (.int 2)) ∧ Int.sign (2 : Int) = Int.sign (3 : Int) := by
  have h := mod_sign_of_divisor (fun _ => none) (-7) 3 (by decide) (by decide)
  have h7 : Int.tmod (-7) 3 = -1 := by decide
  rw [h7] at h
  simpa using h

/-- C2: joining two LTEs over the same relation with single (distinct)
predicates `p1` and `p2` by row identity with `how = "outer"` succeeds and
yields: combined predicate list exactly `[p1 OR p2]`; every left-side output
column renamed with `_x` and masked by `CASE WHEN p1 THEN value ELSE NULL
END`, every right-side column renamed with `_y` and masked by `p2`; on any
row where a side's relative predicate evaluates to false, that side's masked
columns evaluate to NULL. -/
theorem row_identity_outer_join_masking
    (left right : BigFramesExpr) (p1 p2 : ColExpr)
    (lo ro : ExpressionOrdering)
    (htable : left.table = right.table)
    (hlp : left.predicates = [p1]) (hrp : right.predicates = [p2])
    (hne : p1 ≠ p2)
    (hlo : left.ordering = some lo) (hro : right.ordering = some ro) :
    ∃ joined : BigFramesExpr,
      join_by_row_identity left right "outer" = .ok joined ∧
      joined.predicates = [ColExpr.or p1 p2] ∧
      joined.columns =
        (left.columns.map fun kv =>
          (map_left_id kv.1, ColExpr.caseWhen p1 kv.2 (.lit none))) ++
        (right.columns.map fun kv =>
          (map_right_id kv.1, ColExpr.caseWhen p2 kv.2 (.lit none))) ∧
      (∀ (row : Row) (v : ColExpr),
        eval row p1 = .ok (some (.bool false)) →
        eval row (ColExpr.caseWhen p1 v (.lit none)) = .ok none) ∧
      (∀ (row : Row) (v : ColExpr),
        eval row p2 = .ok (some (.bool false)) →
        eval row (ColExpr.caseWhen p2 v (.lit none)) = .ok none) := by
  have hrel : _get_relative_predicates [p1] [p2] = ([p1], [p2]) := by
    unfold _get_relative_predicates
    simp [List.filter, hne, Ne.symm hne]
  unfold join_by_row_identity
  rw [if_neg (by decide), if_neg (by simp [htable]), hlp, hrp, hlo, hro]
  dsimp only
  rw [hrel]
  refine ⟨_, rfl, rfl, rfl, fun row v h => ?_, fun row v h => ?_⟩ <;>
    simp [eval, h, asBoolOpt]

/-- C2 witness: the spec's scenario — columns `a`, `b`, predicates
`p1 = (a > 1)` and `p2 = (b < 25)` on two expressions over the same
relation, joined with `how = "outer"`. -/
theorem row_identity_outer_join_masking_witness :
    ∃ joined : BigFramesExpr,
      join_by_row_identity
          ⟨0, [("a", .column "a"), ("b", .column "b")], [],
            [.gt (.column "a") (.lit (some (.int 1)))], some {}⟩
          ⟨0, [("a", .column "a"), ("b", .column "b")], [],
            [.lt (.column "b") (.lit (some (.int 25)))], some {}⟩
          "outer" = .ok joined ∧
      joined.predicates = [ColExpr.or (.gt (.column "a") (.lit (some (.int 1))))
        (.lt (.column "b") (.lit (some (.int 25))))] ∧
      joined.columns =
        ([("a", ColExpr.column "a"), ("b", ColExpr.column "b")].map fun kv =>
          (map_left_id kv.1,
            ColExpr.caseWhen (.gt (.column "a") (.lit (some (.int 1)))) kv.2
              (.lit none))) ++
        ([("a", ColExpr.column "a"), ("b", ColExpr.column "b")].map fun kv =>
          (map_right_id kv.1,
            ColExpr.caseWhen (.lt (.column "b") (.lit (some (.int 25)))) kv.2
              (.lit none))) ∧
      (∀ (row : Row) (v : ColExpr),
        eval row (.gt (.column "a") (.lit (some (.int 1)))) =
          .ok (some (.bool false)) →
        eval row (ColExpr.caseWhen (.gt (.column "a") (.lit (some (.int 1)))) v
          (.lit none)) = .ok none) ∧
      (∀ (row : Row) (v : ColExpr),
        eval row (.lt (.column "b") (.lit (some (.int 25)))) =
          .ok (some (.bool false)) →
        eval row (ColExpr.caseWhen (.lt (.column "b") (.lit (some (.int 25)))) v
          (.lit none)) = .ok none) :=
  row_identity_outer_join_masking _ _ _ _ {} {} rfl rfl rfl (by decide) rfl rfl

/-- C8 witness: the empty group and a three-row all-NULL group. -/
theorem all_any_empty_group_true_witness :
    allOpEval [] = true ∧ anyOpEval [] = true ∧
    allOpEval [none, none, none] = true ∧
    anyOpEval [none, none, none] = true :=
  ⟨all_any_empty_group_true.1, all_any_empty_group_true.2.1,
    (all_any_empty_group_true.2.2 3).1, (all_any_empty_group_true.2.2 3).2⟩

/-- C9 witness: concrete predicate lists for the three join types. -/
theorem join_predicates_by_how_witness :
    _join_predicates [ColExpr.column "p"] [ColExpr.column "q"] "left" =
      .ok [ColExpr.column "p"] ∧
    _join_predicates [ColExpr.column "p"] [ColExpr.column "q"] "inner" =
      .ok [ColExpr.column "p", ColExpr.column "q"] ∧
    _join_predicates [ColExpr.column "p"] [ColExpr.column "q"] "outer" =
      .ok [ColExpr.or (.column "p") (.column "q")] :=
  ⟨join_predicates_by_how.1 [ColExpr.column "p"] [ColExpr.column "q"],
    by
      have h :=
        (join_predicates_by_how.2.1 [ColExpr.column "p"] [ColExpr.column "q"]).1
      rw [h]; rfl,
    join_predicates_by_how.2.2 (ColExpr.column "p") [] (ColExpr.column "q") []⟩

end BigFrames
